/-
Verification of the PowerPath 100 adaptive question-serving engine
(src/src/game/powerpath.ts) against its natural-language specification.

The TypeScript class `PowerPath100` is shallowly embedded: its mutable
fields become a Lean structure `Engine`, each method becomes a pure
function from the engine state (plus explicit parameters for the ambient
time source `Date.now()` and the non-deterministic random source) to the
new state and the returned value.  The stats observer callback, which in
JavaScript may throw, is modelled as a function into `Except Unit Unit`;
a thrown exception in `recordAnswer` surfaces as `Except.error` in the
returned value while the already-performed field mutations persist,
exactly as for a JavaScript object whose mutated fields survive an
exception unwinding out of a method.

Randomness: `Math.random() < 0.75` in `getTargetDifficulty` becomes an
explicit boolean outcome; the Fisher-Yates `shuffleArray` becomes an
oracle `shuffle : List α → List α` about which theorems assume only what
every outcome of Fisher-Yates satisfies, namely that the output is a
permutation of the input (`shuffleFY` below is the concrete Fisher-Yates
loop and `shuffleFY_perm` proves every outcome of it is a permutation,
justifying the oracle abstraction).
-/
import Mathlib

namespace PowerPath

/-- `Difficulty` from powerpath.ts: 'easy' | 'medium' | 'hard'. -/
inductive Difficulty where
  | easy
  | medium
  | hard
deriving DecidableEq, Repr, BEq

/-- `Choice` from types/index.ts (fields the engine never reads are kept
for fidelity of the data model). -/
structure Choice where
  id : String
  identifier : Option String := none
  text : String
  feedback : String
  correct : Bool
deriving DecidableEq, Repr

/-- The `metadata` object of `PowerPathQuestion` (only the fields the
engine reads). -/
structure QuestionMetadata where
  dok : Option Nat := none
  difficulty : Option String := none
  ccss : Option String := none
deriving DecidableEq, Repr

/-- `PowerPathQuestion` from powerpath.ts. -/
structure PowerPathQuestion where
  id : String
  prompt : String
  choices : List Choice
  difficulty : Difficulty
  humanApproved : Option Bool := none
  metadata : Option QuestionMetadata := none
deriving DecidableEq, Repr

/-- `QuestionHistory` from powerpath.ts. -/
structure QuestionHistory where
  questionId : String
  wasCorrect : Bool
  attemptNumber : Nat
  timestamp : Nat
deriving DecidableEq, Repr

/-- `PowerPathStats` from powerpath.ts. -/
structure PowerPathStats where
  score : Int
  questionsAnswered : Nat
  accuracy : Int
  timeElapsed : String
  isComplete : Bool
deriving DecidableEq, Repr

/-- The observer callback `onStatsUpdate`, which in JavaScript may throw:
`Except.error ()` models a raised exception. -/
def StatsObserver : Type := PowerPathStats → Except Unit Unit

/-- The mutable fields of class `PowerPath100`. -/
structure Engine where
  score : Int
  questionsAnswered : Nat
  correctAnswers : Nat
  currentAttempt : Nat
  startTime : Nat
  allQuestionHistory : List QuestionHistory
  currentAttemptHistory : List QuestionHistory
  guidingQuestions : List PowerPathQuestion
  quizQuestions : List PowerPathQuestion
  currentGuidingIndex : Nat
  onStatsUpdate : Option StatsObserver

/-- `parseDifficulty` from powerpath.ts. -/
def parseDifficulty (diff : Option String) : Difficulty :=
  match diff with
  | none => .medium
  | some d =>
    let lower := d.toLower
    if lower = "easy" ∨ lower = "low" then .easy
    else if lower = "hard" ∨ lower = "high" ∨ lower = "difficult" then .hard
    else .medium

/-- `normalizeQuizQuestions` from powerpath.ts: prefer the metadata
difficulty string over the pre-set tier.  In TypeScript
`q.metadata?.difficulty || q.difficulty` falls back to the already-typed
tier when the metadata string is absent or empty; the fallback branch
therefore keeps `q.difficulty` unchanged (parsing a canonical tier is the
identity on it). -/
def normalizeQuizQuestions (questions : List PowerPathQuestion) :
    List PowerPathQuestion :=
  questions.map fun q =>
    { q with
      difficulty :=
        match q.metadata with
        | some m =>
          match m.difficulty with
          | some s => if s = "" then q.difficulty else parseDifficulty (some s)
          | none => q.difficulty
        | none => q.difficulty }

/-- The constructor of `PowerPath100`. -/
def mkEngine (guidingQuestions quizQuestions : List PowerPathQuestion)
    (onStatsUpdate : Option StatsObserver) (now : Nat) : Engine where
  score := 0
  questionsAnswered := 0
  correctAnswers := 0
  currentAttempt := 1
  startTime := now
  allQuestionHistory := []
  currentAttemptHistory := []
  guidingQuestions := guidingQuestions
  quizQuestions := normalizeQuizQuestions quizQuestions
  currentGuidingIndex := 0
  onStatsUpdate := onStatsUpdate

/-- `calculateIncrement`: `Math.max(4, 14 - Math.floor(score / 10))`.
`Int.fdiv` is floor division, matching `Math.floor` on any number. -/
def calculateIncrement (score : Int) : Int :=
  max 4 (14 - Int.fdiv score 10)

/-- `calculateDecrement`: bracket by current score. -/
def calculateDecrement (score : Int) : Int :=
  if score ≥ 90 then -8
  else if score ≥ 80 then -7
  else if score ≥ 70 then -6
  else if score ≥ 50 then -5
  else if score ≥ 40 then -4
  else if score ≥ 30 then -3
  else if score ≥ 20 then -2
  else -1

/-- `getTargetDifficulty`: `r` is the outcome of `Math.random() < 0.75`. -/
def getTargetDifficulty (r : Bool) (score : Int) : Difficulty :=
  if score ≥ 90 then .hard
  else if score ≥ 50 then (if r then .medium else .hard)
  else .easy

/-- `getFallbackDifficulties`. -/
def getFallbackDifficulties (primary : Difficulty) : List Difficulty :=
  match primary with
  | .easy => [.easy, .medium, .hard]
  | .medium => [.medium, .hard, .easy]
  | .hard => [.hard, .medium, .easy]

/-- `getGloballySeenQuestionIds` (the TS `Set` is modelled as the list of
ids; only membership is ever consulted). -/
def getGloballySeenQuestionIds (e : Engine) : List String :=
  e.allQuestionHistory.map (·.questionId)

/-- `getCurrentAttemptSeenIds`. -/
def getCurrentAttemptSeenIds (e : Engine) : List String :=
  e.currentAttemptHistory.map (·.questionId)

/-- `filterByDifficulty`. -/
def filterByDifficulty (questions : List PowerPathQuestion)
    (difficulty : Difficulty) : List PowerPathQuestion :=
  questions.filter (fun q => q.difficulty = difficulty)

/-- `filterUnseenQuestions`. -/
def filterUnseenQuestions (questions : List PowerPathQuestion)
    (seenIds : List String) : List PowerPathQuestion :=
  questions.filter (fun q => ¬ q.id ∈ seenIds)

/-- `prioritizeHumanApproved`, with the two Fisher-Yates shuffles
abstracted into the oracle `shuffle` (theorems quantify over every
oracle whose output is a permutation of its input, which is exactly the
set of possible outcomes of `shuffleArray`, see `shuffleFY_perm`). -/
def prioritizeHumanApproved (shuffle : List PowerPathQuestion → List PowerPathQuestion)
    (questions : List PowerPathQuestion) : List PowerPathQuestion :=
  let humanApproved := questions.filter (fun q => q.humanApproved = some true)
  let notApproved := questions.filter (fun q => ¬ q.humanApproved = some true)
  shuffle humanApproved ++ shuffle notApproved

/-- The destructuring swap `[array[i], array[j]] = [array[j], array[i]]`
inside `shuffleArray`, on lists; out-of-range indices leave the list
unchanged (they never occur in the loop). -/
def listSwap (l : List α) (i j : Nat) : List α :=
  match l[i]?, l[j]? with
  | some a, some b => (l.set i b).set j a
  | _, _ => l

/-- The loop body chain of `shuffleArray` (Fisher-Yates): iterate from
index `i` down to `1`, swapping position `i` with position
`rand i ∈ [0, i]` (the outcome of `Math.floor(Math.random() * (i + 1))`). -/
def shuffleFYAux (rand : (n : Nat) → Fin (n + 1)) : Nat → List α → List α
  | 0, l => l
  | i + 1, l => shuffleFYAux rand i (listSwap l (i + 1) (rand (i + 1)))

/-- `shuffleArray` (Fisher-Yates) with the random draws supplied by
`rand`. -/
def shuffleFY (rand : (n : Nat) → Fin (n + 1)) (l : List α) : List α :=
  shuffleFYAux rand (l.length - 1) l

theorem cons_set_perm {l : List α} {k : Nat} {c : α} (h : l[k]? = some c)
    (d : α) : List.Perm (c :: l.set k d) (d :: l) := by
  induction l generalizing k with
  | nil => simp at h
  | cons x xs ih =>
    cases k with
    | zero =>
      simp only [List.getElem?_cons_zero, Option.some.injEq] at h
      subst h
      exact List.Perm.swap d x xs
    | succ m =>
      simp only [List.getElem?_cons_succ] at h
      show List.Perm (c :: x :: xs.set m d) (d :: x :: xs)
      exact (List.Perm.swap x c _).trans
        (((ih h).cons x).trans (List.Perm.swap d x xs))

theorem set_set_perm {l : List α} {i j : Nat} {a b : α}
    (hi : l[i]? = some a) (hj : l[j]? = some b) :
    List.Perm ((l.set i b).set j a) l := by
  induction l generalizing i j with
  | nil => simp at hi
  | cons x xs ih =>
    cases i with
    | zero =>
      simp only [List.getElem?_cons_zero, Option.some.injEq] at hi
      subst hi
      cases j with
      | zero => simp
      | succ k =>
        simp only [List.getElem?_cons_succ] at hj
        show List.Perm (b :: xs.set k x) (x :: xs)
        exact cons_set_perm hj x
    | succ m =>
      simp only [List.getElem?_cons_succ] at hi
      cases j with
      | zero =>
        simp only [List.getElem?_cons_zero, Option.some.injEq] at hj
        subst hj
        show List.Perm (a :: xs.set m x) (x :: xs)
        exact cons_set_perm hi x
      | succ k =>
        simp only [List.getElem?_cons_succ] at hj
        show List.Perm (x :: (xs.set m b).set k a) (x :: xs)
        exact (ih hi hj).cons x

theorem listSwap_perm (l : List α) (i j : Nat) :
    List.Perm (listSwap l i j) l := by
  unfold listSwap
  split
  · exact set_set_perm ‹_› ‹_›
  · exact List.Perm.refl l

theorem shuffleFYAux_perm (rand : (n : Nat) → Fin (n + 1)) (fuel : Nat)
    (l : List α) : List.Perm (shuffleFYAux rand fuel l) l := by
  induction fuel generalizing l with
  | zero => exact List.Perm.refl l
  | succ i ih =>
    exact (ih _).trans (listSwap_perm l (i + 1) (rand (i + 1)))

/-- Every possible outcome of the Fisher-Yates `shuffleArray` is a
permutation of its input: this justifies abstracting the shuffles into
an oracle assumed only to permute. -/
theorem shuffleFY_perm (rand : (n : Nat) → Fin (n + 1)) (l : List α) :
    List.Perm (shuffleFY rand l) l :=
  shuffleFYAux_perm rand (l.length - 1) l

/-- One iteration group of `selectQuizQuestion`'s first two loops: walk
the fallback tiers in order over the unseen filter; `some r` means the
TS loop executed `return r`, `none` means it fell through. -/
def tryTiersUnseen (shuffle : List PowerPathQuestion → List PowerPathQuestion)
    (qs : List PowerPathQuestion) (seenIds : List String) :
    List Difficulty → Option (Option PowerPathQuestion)
  | [] => none
  | d :: rest =>
    let filtered := filterByDifficulty qs d
    let unseen := filterUnseenQuestions filtered seenIds
    if unseen.length > 0 then some (prioritizeHumanApproved shuffle unseen).head?
    else tryTiersUnseen shuffle qs seenIds rest

/-- The third loop of `selectQuizQuestion`: any question of the tier,
regardless of exposure. -/
def tryTiersAny (shuffle : List PowerPathQuestion → List PowerPathQuestion)
    (qs : List PowerPathQuestion) :
    List Difficulty → Option (Option PowerPathQuestion)
  | [] => none
  | d :: rest =>
    let filtered := filterByDifficulty qs d
    if filtered.length > 0 then some (prioritizeHumanApproved shuffle filtered).head?
    else tryTiersAny shuffle qs rest

/-- `selectQuizQuestion`.  `r` is the outcome of `Math.random() < 0.75`
inside `getTargetDifficulty`; `shuffle` is the shuffle oracle (in any
single run at most two shuffle call sites execute, always on lists that
are empty or distinct, so a single oracle realizes every outcome). -/
def selectQuizQuestion
    (shuffle : List PowerPathQuestion → List PowerPathQuestion) (r : Bool)
    (e : Engine) : Option PowerPathQuestion :=
  let targetDifficulty := getTargetDifficulty r e.score
  let fallbackOrder := getFallbackDifficulties targetDifficulty
  let globallySeenIds := getGloballySeenQuestionIds e
  match tryTiersUnseen shuffle e.quizQuestions globallySeenIds fallbackOrder with
  | some res => res
  | none =>
    let currentSeenIds := getCurrentAttemptSeenIds e
    match tryTiersUnseen shuffle e.quizQuestions currentSeenIds fallbackOrder with
    | some res => res
    | none =>
      match tryTiersAny shuffle e.quizQuestions fallbackOrder with
      | some res => res
      | none =>
        if e.quizQuestions.length > 0 then (shuffle e.quizQuestions).head?
        else none

/-- `'guiding' | 'quiz'`. -/
inductive Phase where
  | guiding
  | quiz
deriving DecidableEq, Repr

/-- `PowerPathState` from powerpath.ts. -/
structure PowerPathState where
  score : Int
  questionsAnswered : Nat
  correctAnswers : Nat
  accuracy : Int
  isComplete : Bool
  currentPhase : Phase
  guidingQuestionsRemaining : Nat
  elapsedTimeMs : Nat
deriving DecidableEq, Repr

/-- `getState`.  `now` is the ambient `Date.now()`.  `accuracy` is
`Math.round((correctAnswers / questionsAnswered) * 100)` modelled as the
exact half-up rounding of the rational `100·c/q`, i.e.
`(200·c + q) / (2·q)` in natural division. -/
def getState (e : Engine) (now : Nat) : PowerPathState where
  score := e.score
  questionsAnswered := e.questionsAnswered
  correctAnswers := e.correctAnswers
  accuracy :=
    if e.questionsAnswered > 0 then
      ((200 * e.correctAnswers + e.questionsAnswered) /
        (2 * e.questionsAnswered) : Nat)
    else 0
  isComplete := e.score ≥ 100
  currentPhase :=
    if e.currentGuidingIndex < e.guidingQuestions.length then .guiding else .quiz
  guidingQuestionsRemaining := e.guidingQuestions.length - e.currentGuidingIndex
  elapsedTimeMs := now - e.startTime

/-- `padStart(2, '0')` on a decimal-rendered natural number. -/
def pad2 (n : Nat) : String :=
  if n < 10 then "0" ++ toString n else toString n

/-- `formatTime`. -/
def formatTime (ms : Nat) : String :=
  let seconds := ms / 1000
  let hours := seconds / 3600
  let minutes := (seconds % 3600) / 60
  let secs := seconds % 60
  pad2 hours ++ ":" ++ pad2 minutes ++ ":" ++ pad2 secs

/-- `getStats`. -/
def getStats (e : Engine) (now : Nat) : PowerPathStats :=
  let state := getState e now
  { score := state.score
    questionsAnswered := state.questionsAnswered
    accuracy := state.accuracy
    timeElapsed := formatTime state.elapsedTimeMs
    isComplete := state.isComplete }

/-- `if (this.onStatsUpdate) { this.onStatsUpdate(this.getStats()); }` —
the observer may raise (`Except.error`). -/
def notifyObs (e : Engine) (now : Nat) : Except Unit Unit :=
  match e.onStatsUpdate with
  | none => .ok ()
  | some f => f (getStats e now)

/-- The field mutations of `recordAnswer`, which all precede the
observer call: bump `questionsAnswered`, append the history entry to
both histories, advance the guiding cursor when the answered id is the
guiding question at the cursor, and apply the score model (the score
change is computed from the pre-answer score, which no earlier mutation
touches). -/
def recordAnswerState (e : Engine) (questionId : String) (wasCorrect : Bool)
    (now : Nat) : Engine :=
  let isGuidingQuestion :=
    decide (e.currentGuidingIndex < e.guidingQuestions.length) &&
      (match e.guidingQuestions[e.currentGuidingIndex]? with
       | some q => q.id == questionId
       | none => false)
  let historyEntry : QuestionHistory :=
    { questionId := questionId
      wasCorrect := wasCorrect
      attemptNumber := e.currentAttempt
      timestamp := now }
  { e with
    questionsAnswered := e.questionsAnswered + 1
    allQuestionHistory := e.allQuestionHistory ++ [historyEntry]
    currentAttemptHistory := e.currentAttemptHistory ++ [historyEntry]
    currentGuidingIndex :=
      if isGuidingQuestion then e.currentGuidingIndex + 1
      else e.currentGuidingIndex
    correctAnswers :=
      if wasCorrect then e.correctAnswers + 1 else e.correctAnswers
    score :=
      if wasCorrect then min 100 (e.score + calculateIncrement e.score)
      else max 0 (e.score + calculateDecrement e.score) }

/-- `recordAnswer`.  The mutated engine is returned in both outcomes
(a JavaScript object keeps its mutated fields when an exception unwinds
out of a method); the second component is `.ok scoreChange` when the
method returns normally and `.error ()` when the observer's exception
propagates out of the method. -/
def recordAnswer (e : Engine) (questionId : String) (wasCorrect : Bool)
    (now : Nat) : Engine × Except Unit Int :=
  let e' := recordAnswerState e questionId wasCorrect now
  let scoreChange : Int :=
    if wasCorrect then calculateIncrement e.score else calculateDecrement e.score
  match notifyObs e' now with
  | .ok _ => (e', .ok scoreChange)
  | .error u => (e', .error u)

/-- `isComplete`. -/
def isComplete (e : Engine) : Bool :=
  decide (e.score ≥ 100)

/-- `getCurrentPhase`. -/
def getCurrentPhase (e : Engine) : Phase :=
  if e.currentGuidingIndex < e.guidingQuestions.length then .guiding else .quiz

/-- `getNextQuestion`. -/
def getNextQuestion
    (shuffle : List PowerPathQuestion → List PowerPathQuestion) (r : Bool)
    (e : Engine) : Option PowerPathQuestion :=
  if e.score ≥ 100 then none
  else if e.currentGuidingIndex < e.guidingQuestions.length then
    e.guidingQuestions[e.currentGuidingIndex]?
  else selectQuizQuestion shuffle r e

/-- `resetAttempt`; it too ends with a (fallible) observer notification. -/
def resetAttempt (e : Engine) (now : Nat) : Engine × Except Unit Unit :=
  let e' : Engine :=
    { e with
      score := 0
      questionsAnswered := 0
      correctAnswers := 0
      currentGuidingIndex := 0
      currentAttemptHistory := []
      currentAttempt := e.currentAttempt + 1
      startTime := now }
  (e', notifyObs e' now)

/-- `fullReset`. -/
def fullReset (e : Engine) (now : Nat) : Engine × Except Unit Unit :=
  let e' : Engine :=
    { e with
      score := 0
      questionsAnswered := 0
      correctAnswers := 0
      currentGuidingIndex := 0
      allQuestionHistory := []
      currentAttemptHistory := []
      currentAttempt := 1
      startTime := now }
  (e', notifyObs e' now)

/-- A finite sequence of `recordAnswer` calls (question id, correctness,
timestamp), threaded through the engine state. -/
def runAnswers (e : Engine) (calls : List (String × Bool × Nat)) : Engine :=
  calls.foldl (fun acc c => (recordAnswer acc c.1 c.2.1 c.2.2).1) e

theorem recordAnswer_fst (e : Engine) (questionId : String)
    (wasCorrect : Bool) (now : Nat) :
    (recordAnswer e questionId wasCorrect now).1
      = recordAnswerState e questionId wasCorrect now := by
  cases h : notifyObs (recordAnswerState e questionId wasCorrect now) now <;>
    simp [recordAnswer, h]

theorem recordAnswer_snd_of_no_observer (e : Engine) (questionId : String)
    (wasCorrect : Bool) (now : Nat) (h : e.onStatsUpdate = none) :
    (recordAnswer e questionId wasCorrect now).2
      = .ok (if wasCorrect then calculateIncrement e.score
             else calculateDecrement e.score) := by
  have h' : (recordAnswerState e questionId wasCorrect now).onStatsUpdate
      = none := h
  simp [recordAnswer, notifyObs, h']

theorem recordAnswerState_score (e : Engine) (questionId : String)
    (wasCorrect : Bool) (now : Nat) :
    (recordAnswerState e questionId wasCorrect now).score
      = if wasCorrect then min 100 (e.score + calculateIncrement e.score)
        else max 0 (e.score + calculateDecrement e.score) := rfl

theorem calculateIncrement_ge_four (s : Int) : 4 ≤ calculateIncrement s :=
  le_max_left 4 _

theorem calculateDecrement_le_neg_one (s : Int) : calculateDecrement s ≤ -1 := by
  unfold calculateDecrement
  split_ifs <;> norm_num

theorem recordAnswerState_score_bounds (e : Engine) (questionId : String)
    (wasCorrect : Bool) (now : Nat) (h0 : 0 ≤ e.score) (h1 : e.score ≤ 100) :
    0 ≤ (recordAnswerState e questionId wasCorrect now).score ∧
      (recordAnswerState e questionId wasCorrect now).score ≤ 100 := by
  rw [recordAnswerState_score]
  rcases wasCorrect with _ | _
  · simp only [Bool.false_eq_true, if_false]
    constructor
    · exact le_max_left 0 _
    · exact max_le (by norm_num)
        (by have := calculateDecrement_le_neg_one e.score; linarith)
  · simp only [if_true]
    constructor
    · exact le_min (by norm_num)
        (by have := calculateIncrement_ge_four e.score; linarith)
    · exact min_le_left 100 _

theorem runAnswers_score_bounds (calls : List (String × Bool × Nat))
    (e : Engine) (h0 : 0 ≤ e.score) (h1 : e.score ≤ 100) :
    0 ≤ (runAnswers e calls).score ∧ (runAnswers e calls).score ≤ 100 := by
  induction calls generalizing e with
  | nil => exact ⟨h0, h1⟩
  | cons c cs ih =>
    have hb := recordAnswerState_score_bounds e c.1 c.2.1 c.2.2 h0 h1
    have hstep : runAnswers e (c :: cs)
        = runAnswers (recordAnswerState e c.1 c.2.1 c.2.2) cs := by
      show runAnswers (recordAnswer e c.1 c.2.1 c.2.2).1 cs = _
      rw [recordAnswer_fst]
    rw [hstep]
    exact ih _ hb.1 hb.2

/-- Claim C1: starting from a freshly constructed engine, after every
finite sequence of `recordAnswer` calls — with arbitrary question ids,
correctness flags and timestamps, and hence after each individual call,
obtained as the prefix `calls.take k` — the score satisfies
`0 ≤ score ≤ 100`; and each call clamps the score with
`min 100 (score + delta)` on a correct answer and
`max 0 (score + delta)` on an incorrect one. -/
theorem score_invariant_C1 :
    (∀ (g q : List PowerPathQuestion) (obs : Option StatsObserver)
       (start : Nat) (calls : List (String × Bool × Nat)) (k : Nat),
       0 ≤ (runAnswers (mkEngine g q obs start) (calls.take k)).score ∧
         (runAnswers (mkEngine g q obs start) (calls.take k)).score ≤ 100) ∧
    (∀ (e : Engine) (qid : String) (now : Nat),
       (recordAnswer e qid true now).1.score
           = min 100 (e.score + calculateIncrement e.score) ∧
       (recordAnswer e qid false now).1.score
           = max 0 (e.score + calculateDecrement e.score)) := by
  constructor
  · intro g q obs start calls k
    exact runAnswers_score_bounds (calls.take k) (mkEngine g q obs start)
      (le_refl (0 : Int)) (show (0 : Int) ≤ 100 by norm_num)
  · intro e qid now
    constructor <;> simp [recordAnswer_fst, recordAnswerState_score]

/-- Claim C2: on a correct answer `recordAnswer` computes the delta
`max(4, 14 − floor(score / 10))` and clamps the new score to
`min(100, score + delta)`; consecutive correct answers from score 0
drive the score 0 → 14 → 27 → 39, and a correct answer at score 96
yields exactly 100. -/
theorem correct_answer_model_C2 :
    (∀ (e : Engine) (qid : String) (now : Nat),
       0 ≤ e.score → e.score ≤ 100 →
       calculateIncrement e.score = max 4 (14 - Int.fdiv e.score 10) ∧
       (recordAnswer e qid true now).1.score
         = min 100 (e.score + max 4 (14 - Int.fdiv e.score 10))) ∧
    (runAnswers (mkEngine [] [] none 0) [("a", true, 0)]).score = 14 ∧
    (runAnswers (mkEngine [] [] none 0)
       [("a", true, 0), ("b", true, 0)]).score = 27 ∧
    (runAnswers (mkEngine [] [] none 0)
       [("a", true, 0), ("b", true, 0), ("c", true, 0)]).score = 39 ∧
    (recordAnswer { mkEngine [] [] none 0 with score := 96 }
       "d" true 0).1.score = 100 := by
  refine ⟨?_, by decide, by decide, by decide, by decide⟩
  intro e qid now _ _
  refine ⟨rfl, ?_⟩
  simp [recordAnswer_fst, recordAnswerState_score, calculateIncrement]

/-- Witness for C2 at the freshly constructed engine (score 0). -/
theorem correct_answer_model_C2_witness :
    calculateIncrement (mkEngine [] [] none 0).score
        = max 4 (14 - Int.fdiv (mkEngine [] [] none 0).score 10) ∧
    (recordAnswer (mkEngine [] [] none 0) "q" true 0).1.score
        = min 100 ((mkEngine [] [] none 0).score
            + max 4 (14 - Int.fdiv (mkEngine [] [] none 0).score 10)) :=
  correct_answer_model_C2.1 (mkEngine [] [] none 0) "q" 0
    (by decide) (by decide)

/-- Claim C3: on an incorrect answer the delta is selected by inclusive
lower-bound score brackets (≥90 → −8, ≥80 → −7, ≥70 → −6, ≥50 → −5,
≥40 → −4, ≥30 → −3, ≥20 → −2, otherwise −1) and the new score is
`max(0, score + delta)`; in particular the delta is −8 at score 90 and
−7 at score 89. -/
theorem incorrect_answer_model_C3 :
    (∀ s : Int,
      (90 ≤ s → calculateDecrement s = -8) ∧
      (80 ≤ s → s < 90 → calculateDecrement s = -7) ∧
      (70 ≤ s → s < 80 → calculateDecrement s = -6) ∧
      (50 ≤ s → s < 70 → calculateDecrement s = -5) ∧
      (40 ≤ s → s < 50 → calculateDecrement s = -4) ∧
      (30 ≤ s → s < 40 → calculateDecrement s = -3) ∧
      (20 ≤ s → s < 30 → calculateDecrement s = -2) ∧
      (s < 20 → calculateDecrement s = -1)) ∧
    calculateDecrement 90 = -8 ∧
    calculateDecrement 89 = -7 ∧
    (∀ (e : Engine) (qid : String) (now : Nat),
       0 ≤ e.score → e.score ≤ 100 →
       (recordAnswer e qid false now).1.score
         = max 0 (e.score + calculateDecrement e.score)) := by
  refine ⟨?_, by decide, by decide, ?_⟩
  · intro s
    unfold calculateDecrement
    refine ⟨?_, ?_, ?_, ?_, ?_, ?_, ?_, ?_⟩ <;> intros <;> split_ifs <;> omega
  · intro e qid now _ _
    simp [recordAnswer_fst, recordAnswerState_score]

/-- Witness for C3 at score 95 (the −8 bracket) on a concrete engine. -/
theorem incorrect_answer_model_C3_witness :
    calculateDecrement 95 = -8 ∧
    (recordAnswer { mkEngine [] [] none 0 with score := 95 }
        "q" false 0).1.score
      = max 0 ((95 : Int) + calculateDecrement 95) :=
  ⟨(incorrect_answer_model_C3.1 95).1 (by decide),
   incorrect_answer_model_C3.2.2.2 { mkEngine [] [] none 0 with score := 95 }
     "q" 0 (by decide) (by decide)⟩

/-- Claim C7: `resetAttempt` zeroes `score`, `questionsAnswered`,
`correctAnswers` and the guiding cursor, empties the attempt history,
increments the attempt number by exactly 1 and resets `startTime` to the
current time, while leaving the global history, both question pools and
the registered observer unchanged. -/
theorem resetAttempt_C7 (e : Engine) (now : Nat) :
    (resetAttempt e now).1.score = 0 ∧
    (resetAttempt e now).1.questionsAnswered = 0 ∧
    (resetAttempt e now).1.correctAnswers = 0 ∧
    (resetAttempt e now).1.currentGuidingIndex = 0 ∧
    (resetAttempt e now).1.currentAttemptHistory = [] ∧
    (resetAttempt e now).1.currentAttempt = e.currentAttempt + 1 ∧
    (resetAttempt e now).1.startTime = now ∧
    (resetAttempt e now).1.allQuestionHistory = e.allQuestionHistory ∧
    (resetAttempt e now).1.guidingQuestions = e.guidingQuestions ∧
    (resetAttempt e now).1.quizQuestions = e.quizQuestions ∧
    (resetAttempt e now).1.onStatsUpdate = e.onStatsUpdate :=
  ⟨rfl, rfl, rfl, rfl, rfl, rfl, rfl, rfl, rfl, rfl, rfl⟩

/-- Claim C10: completion is not absorbing — `recordAnswer` performs no
completeness check, so at score exactly 100 (`isComplete` true) an
incorrect answer drops the score to 92 (making `isComplete` false) while
still incrementing `questionsAnswered` and appending to both
histories. -/
theorem complete_not_absorbing_C10 (e : Engine) (qid : String) (now : Nat)
    (h : e.score = 100) :
    isComplete e = true ∧
    (recordAnswer e qid false now).1.score = 92 ∧
    isComplete (recordAnswer e qid false now).1 = false ∧
    (recordAnswer e qid false now).1.questionsAnswered
        = e.questionsAnswered + 1 ∧
    (recordAnswer e qid false now).1.allQuestionHistory
        = e.allQuestionHistory ++ [⟨qid, false, e.currentAttempt, now⟩] ∧
    (recordAnswer e qid false now).1.currentAttemptHistory
        = e.currentAttemptHistory ++ [⟨qid, false, e.currentAttempt, now⟩] := by
  have hsc : (recordAnswer e qid false now).1.score = 92 := by
    rw [recordAnswer_fst, recordAnswerState_score]
    simp [calculateDecrement, h]
  refine ⟨by simp [isComplete, h], hsc, by simp [isComplete, hsc], ?_, ?_, ?_⟩
  · rw [recordAnswer_fst]; rfl
  · rw [recordAnswer_fst]; rfl
  · rw [recordAnswer_fst]; rfl

/-- Witness for C10 at a concrete engine whose score is 100. -/
theorem complete_not_absorbing_C10_witness :
    ({ mkEngine [] [] none 0 with score := 100 } : Engine).score = 100 ∧
    (recordAnswer { mkEngine [] [] none 0 with score := 100 }
        "q" false 0).1.score = 92 :=
  ⟨by decide,
   (complete_not_absorbing_C10 { mkEngine [] [] none 0 with score := 100 }
      "q" 0 (by decide)).2.1⟩

/-- Claim C6 is violated by the code: `recordAnswer` invokes the
observer with no guard, so a raising observer propagates its exception
out of the call — no delta is returned to the caller (second component
`.error ()`), contrary to the claimed isolation.  The state mutation
itself does persist unchanged (it fully precedes the observer call): the
resulting engine equals the one produced with no observer registered. -/
theorem observer_not_isolated_C6 :
    (recordAnswer (mkEngine [] [] (some fun _ => .error ()) 0)
        "q" true 0).2 = .error () ∧
    (recordAnswer (mkEngine [] [] (some fun _ => .error ()) 0)
        "q" true 0).1
      = recordAnswerState (mkEngine [] [] (some fun _ => .error ()) 0)
          "q" true 0 ∧
    (recordAnswer (mkEngine [] [] (some fun _ => .error ()) 0)
        "q" true 0).1.score = 14 ∧
    (recordAnswer (mkEngine [] [] (some fun _ => .error ()) 0)
        "q" true 0).1.questionsAnswered = 1 :=
  ⟨rfl, recordAnswer_fst .., by decide, by decide⟩

theorem calculateIncrement_96_99 (s : Int) (h1 : 96 ≤ s) (h2 : s ≤ 99) :
    calculateIncrement s = 5 := by
  interval_cases s <;> decide

theorem add_calculateIncrement_le_100 (s : Int) (h1 : 0 ≤ s) (h2 : s ≤ 95) :
    s + calculateIncrement s ≤ 100 := by
  interval_cases s <;> decide

theorem add_calculateDecrement_nonneg (s : Int) (h1 : 1 ≤ s) :
    0 ≤ s + calculateDecrement s := by
  unfold calculateDecrement
  split_ifs <;> omega

/-- Counterexample to C9 as stated: at score 91 (inside the claimed
range 91 ≤ s ≤ 99) a correct answer returns delta 5 while the score
rises by exactly 5 (91 → 96), not strictly less; and at score 1 (inside
the claimed range 1 ≤ s ≤ 7) an incorrect answer returns −1 while the
score decreases by exactly 1, so the magnitude never exceeds the actual
decrease there. -/
theorem raw_delta_C9_counterexample :
    ((recordAnswer { mkEngine [] [] none 0 with score := 91 }
        "q" true 0).2 = .ok 5 ∧
     (recordAnswer { mkEngine [] [] none 0 with score := 91 }
        "q" true 0).1.score = 96 ∧
     ¬ ((96 : Int) - 91 < 5)) ∧
    ((recordAnswer { mkEngine [] [] none 0 with score := 1 }
        "q" false 0).2 = .ok (-1) ∧
     (recordAnswer { mkEngine [] [] none 0 with score := 1 }
        "q" false 0).1.score = 0 ∧
     ¬ ((1 : Int) - 0 < 1)) :=
  ⟨⟨rfl, by decide, by decide⟩, ⟨rfl, by decide, by decide⟩⟩

/-- Claim C9, amended: `recordAnswer` returns the raw formula delta
computed from the pre-answer score, not the clamped score change.  On
correct answers the returned delta strictly exceeds the actual score
increase exactly at scores 96–99 (delta 5, increase 100 − s ≤ 4), while
for every score 0 ≤ s ≤ 95 the score rises by exactly the delta; on
incorrect answers the delta magnitude exceeds the actual decrease only
at score 0 (returns −1 while the score stays 0), while for every score
s ≥ 1 the score decreases by exactly the delta magnitude. -/
theorem raw_delta_C9 :
    (∀ (e : Engine) (qid : String) (now : Nat), e.onStatsUpdate = none →
      (recordAnswer e qid true now).2 = .ok (calculateIncrement e.score) ∧
      (recordAnswer e qid false now).2 = .ok (calculateDecrement e.score)) ∧
    (∀ (e : Engine) (qid : String) (now : Nat),
      96 ≤ e.score → e.score ≤ 99 →
      calculateIncrement e.score = 5 ∧
      (recordAnswer e qid true now).1.score = 100 ∧
      (recordAnswer e qid true now).1.score - e.score < 5) ∧
    (∀ (e : Engine) (qid : String) (now : Nat),
      0 ≤ e.score → e.score ≤ 95 →
      (recordAnswer e qid true now).1.score
          = e.score + calculateIncrement e.score) ∧
    (∀ (e : Engine) (qid : String) (now : Nat),
      1 ≤ e.score →
      (recordAnswer e qid false now).1.score
          = e.score + calculateDecrement e.score ∧
      e.score - (recordAnswer e qid false now).1.score
          = -calculateDecrement e.score) ∧
    (∀ (e : Engine) (qid : String) (now : Nat),
      e.score = 0 →
      calculateDecrement e.score = -1 ∧
      (recordAnswer e qid false now).1.score = 0 ∧
      e.score - (recordAnswer e qid false now).1.score = 0) := by
  refine ⟨?_, ?_, ?_, ?_, ?_⟩
  · intro e qid now h
    constructor <;> simp [recordAnswer_snd_of_no_observer e _ _ _ h]
  · intro e qid now h1 h2
    have hinc := calculateIncrement_96_99 e.score h1 h2
    have hsc : (recordAnswer e qid true now).1.score = 100 := by
      rw [recordAnswer_fst, recordAnswerState_score]
      simp only [if_true, hinc]
      omega
    exact ⟨hinc, hsc, by rw [hsc]; omega⟩
  · intro e qid now h1 h2
    rw [recordAnswer_fst, recordAnswerState_score]
    simp only [if_true]
    exact min_eq_right (add_calculateIncrement_le_100 e.score h1 h2)
  · intro e qid now h1
    have hsc : (recordAnswer e qid false now).1.score
        = e.score + calculateDecrement e.score := by
      rw [recordAnswer_fst, recordAnswerState_score]
      simp only [Bool.false_eq_true, if_false]
      exact max_eq_right (add_calculateDecrement_nonneg e.score h1)
    exact ⟨hsc, by rw [hsc]; ring⟩
  · intro e qid now h
    have hdec : calculateDecrement e.score = -1 := by rw [h]; decide
    have hsc : (recordAnswer e qid false now).1.score = 0 := by
      rw [recordAnswer_fst, recordAnswerState_score]
      simp only [Bool.false_eq_true, if_false, hdec, h]
      decide
    exact ⟨hdec, hsc, by rw [hsc, h]; ring⟩

/-- Witness for the amended C9 at concrete engines with scores 0, 96,
50 and 0, exercising every hypothesis. -/
theorem raw_delta_C9_witness :
    (recordAnswer (mkEngine [] [] none 0) "q" true 0).2
        = .ok (calculateIncrement (mkEngine [] [] none 0).score) ∧
    (recordAnswer { mkEngine [] [] none 0 with score := 96 }
        "q" true 0).1.score = 100 ∧
    (recordAnswer { mkEngine [] [] none 0 with score := 50 }
        "q" true 0).1.score
      = 50 + calculateIncrement 50 ∧
    (recordAnswer { mkEngine [] [] none 0 with score := 50 }
        "q" false 0).1.score
      = 50 + calculateDecrement 50 ∧
    (recordAnswer (mkEngine [] [] none 0) "q" false 0).1.score = 0 :=
  ⟨(raw_delta_C9.1 (mkEngine [] [] none 0) "q" 0 rfl).1,
   (raw_delta_C9.2.1 { mkEngine [] [] none 0 with score := 96 } "q" 0
      (by decide) (by decide)).2.1,
   raw_delta_C9.2.2.1 { mkEngine [] [] none 0 with score := 50 } "q" 0
      (by decide) (by decide),
   (raw_delta_C9.2.2.2.1 { mkEngine [] [] none 0 with score := 50 } "q" 0
      (by decide)).1,
   (raw_delta_C9.2.2.2.2 (mkEngine [] [] none 0) "q" 0 rfl).2.1⟩

theorem exists_head?_mem {l : List α} (h : l ≠ []) :
    ∃ a, l.head? = some a ∧ a ∈ l := by
  cases l with
  | nil => exact absurd rfl h
  | cons x xs => exact ⟨x, rfl, List.Mem.head xs⟩

theorem perm_ne_nil {l₁ l₂ : List α} (hp : List.Perm l₁ l₂) (h : l₂ ≠ []) :
    l₁ ≠ [] := by
  intro hnil
  apply h
  have := hp.length_eq
  rw [hnil] at this
  exact List.eq_nil_of_length_eq_zero this.symm

theorem prioritizeHumanApproved_perm
    (shuffle : List PowerPathQuestion → List PowerPathQuestion)
    (hs : ∀ l, List.Perm (shuffle l) l) (qs : List PowerPathQuestion) :
    List.Perm (prioritizeHumanApproved shuffle qs) qs := by
  unfold prioritizeHumanApproved
  refine List.Perm.trans (List.Perm.append (hs _) (hs _)) ?_
  have := List.filter_append_perm
    (fun q => decide (q.humanApproved = some true)) qs
  simpa [decide_not] using this

theorem getFallbackDifficulties_head (d : Difficulty) :
    ∃ rest, getFallbackDifficulties d = d :: rest := by
  cases d <;> exact ⟨_, rfl⟩

theorem tryTiersUnseen_cons_pos
    (shuffle : List PowerPathQuestion → List PowerPathQuestion)
    (qs : List PowerPathQuestion) (seen : List String) (d : Difficulty)
    (rest : List Difficulty)
    (h : (filterUnseenQuestions (filterByDifficulty qs d) seen).length > 0) :
    tryTiersUnseen shuffle qs seen (d :: rest)
      = some (prioritizeHumanApproved shuffle
          (filterUnseenQuestions (filterByDifficulty qs d) seen)).head? := by
  simp only [tryTiersUnseen]
  rw [if_pos h]

/-- Claim C4: in quiz phase, for every outcome of the random source
(target-tier coin `r` and permutation oracle `shuffle`), if some quiz
question of the targeted tier has never been answered in any attempt,
the selector returns a question whose id does not occur in the global
history. -/
theorem exposure_avoidance_C4
    (shuffle : List PowerPathQuestion → List PowerPathQuestion)
    (hs : ∀ l, List.Perm (shuffle l) l) (r : Bool) (e : Engine)
    (_hphase : e.guidingQuestions.length ≤ e.currentGuidingIndex)
    (hne : filterUnseenQuestions
        (filterByDifficulty e.quizQuestions (getTargetDifficulty r e.score))
        (getGloballySeenQuestionIds e) ≠ []) :
    ∃ q, selectQuizQuestion shuffle r e = some q ∧
      q.id ∉ getGloballySeenQuestionIds e := by
  have hlen : (filterUnseenQuestions
      (filterByDifficulty e.quizQuestions (getTargetDifficulty r e.score))
      (getGloballySeenQuestionIds e)).length > 0 :=
    List.length_pos.mpr hne
  have hperm := prioritizeHumanApproved_perm shuffle hs
    (filterUnseenQuestions
      (filterByDifficulty e.quizQuestions (getTargetDifficulty r e.score))
      (getGloballySeenQuestionIds e))
  have hpne := perm_ne_nil hperm hne
  obtain ⟨p, hp_head, hp_mem⟩ := exists_head?_mem hpne
  have hp_unseen : p ∈ filterUnseenQuestions
      (filterByDifficulty e.quizQuestions (getTargetDifficulty r e.score))
      (getGloballySeenQuestionIds e) := hperm.mem_iff.mp hp_mem
  have hp_id : p.id ∉ getGloballySeenQuestionIds e := by
    have := (List.mem_filter.mp hp_unseen).2
    simpa using this
  obtain ⟨rest, hfb⟩ :=
    getFallbackDifficulties_head (getTargetDifficulty r e.score)
  have h1 : tryTiersUnseen shuffle e.quizQuestions
      (getGloballySeenQuestionIds e)
      (getFallbackDifficulties (getTargetDifficulty r e.score))
        = some (some p) := by
    rw [hfb, tryTiersUnseen_cons_pos shuffle e.quizQuestions
      (getGloballySeenQuestionIds e) (getTargetDifficulty r e.score) rest hlen,
      hp_head]
  refine ⟨p, ?_, hp_id⟩
  simp only [selectQuizQuestion]
  rw [h1]

/-- Witness for C4: one fresh easy quiz question, empty history. -/
theorem exposure_avoidance_C4_witness :
    ∃ q, selectQuizQuestion id true
        (mkEngine []
          [{ id := "x", prompt := "", choices := [], difficulty := .easy }]
          none 0) = some q ∧
      q.id ∉ getGloballySeenQuestionIds
        (mkEngine []
          [{ id := "x", prompt := "", choices := [], difficulty := .easy }]
          none 0) :=
  exposure_avoidance_C4 id (fun l => List.Perm.refl l) true
    (mkEngine []
      [{ id := "x", prompt := "", choices := [], difficulty := .easy }]
      none 0)
    (by decide) (by decide)

theorem tryTiersUnseen_empty
    (shuffle : List PowerPathQuestion → List PowerPathQuestion)
    (seen : List String) (tiers : List Difficulty) :
    tryTiersUnseen shuffle [] seen tiers = none := by
  induction tiers with
  | nil => rfl
  | cons d rest ih =>
    simp [tryTiersUnseen, filterByDifficulty, filterUnseenQuestions, ih]

theorem tryTiersAny_empty
    (shuffle : List PowerPathQuestion → List PowerPathQuestion)
    (tiers : List Difficulty) :
    tryTiersAny shuffle [] tiers = none := by
  induction tiers with
  | nil => rfl
  | cons d rest ih => simp [tryTiersAny, filterByDifficulty, ih]

theorem tryTiersUnseen_some
    (shuffle : List PowerPathQuestion → List PowerPathQuestion)
    (hs : ∀ l, List.Perm (shuffle l) l) (qs : List PowerPathQuestion)
    (seen : List String) (tiers : List Difficulty)
    (res : Option PowerPathQuestion)
    (h : tryTiersUnseen shuffle qs seen tiers = some res) :
    ∃ q, res = some q := by
  induction tiers with
  | nil => simp [tryTiersUnseen] at h
  | cons d rest ih =>
    simp only [tryTiersUnseen] at h
    by_cases hc :
        (filterUnseenQuestions (filterByDifficulty qs d) seen).length > 0
    · rw [if_pos hc] at h
      have hune : filterUnseenQuestions (filterByDifficulty qs d) seen ≠ [] :=
        List.length_pos.mp hc
      have hpne := perm_ne_nil (prioritizeHumanApproved_perm shuffle hs _) hune
      obtain ⟨a, ha, _⟩ := exists_head?_mem hpne
      exact ⟨a, (Option.some.inj h).symm.trans ha⟩
    · rw [if_neg hc] at h
      exact ih h

theorem tryTiersAny_some
    (shuffle : List PowerPathQuestion → List PowerPathQuestion)
    (hs : ∀ l, List.Perm (shuffle l) l) (qs : List PowerPathQuestion)
    (tiers : List Difficulty) (res : Option PowerPathQuestion)
    (h : tryTiersAny shuffle qs tiers = some res) :
    ∃ q, res = some q := by
  induction tiers with
  | nil => simp [tryTiersAny] at h
  | cons d rest ih =>
    simp only [tryTiersAny] at h
    by_cases hc : (filterByDifficulty qs d).length > 0
    · rw [if_pos hc] at h
      have hune : filterByDifficulty qs d ≠ [] := List.length_pos.mp hc
      have hpne := perm_ne_nil (prioritizeHumanApproved_perm shuffle hs _) hune
      obtain ⟨a, ha, _⟩ := exists_head?_mem hpne
      exact ⟨a, (Option.some.inj h).symm.trans ha⟩
    · rw [if_neg hc] at h
      exact ih h

theorem selectQuizQuestion_some
    (shuffle : List PowerPathQuestion → List PowerPathQuestion)
    (hs : ∀ l, List.Perm (shuffle l) l) (r : Bool) (e : Engine)
    (hqs : e.quizQuestions ≠ []) :
    ∃ q, selectQuizQuestion shuffle r e = some q := by
  simp only [selectQuizQuestion]
  cases h1 : tryTiersUnseen shuffle e.quizQuestions
      (getGloballySeenQuestionIds e)
      (getFallbackDifficulties (getTargetDifficulty r e.score)) with
  | some res => exact tryTiersUnseen_some shuffle hs _ _ _ _ h1
  | none =>
    cases h2 : tryTiersUnseen shuffle e.quizQuestions
        (getCurrentAttemptSeenIds e)
        (getFallbackDifficulties (getTargetDifficulty r e.score)) with
    | some res => exact tryTiersUnseen_some shuffle hs _ _ _ _ h2
    | none =>
      cases h3 : tryTiersAny shuffle e.quizQuestions
          (getFallbackDifficulties (getTargetDifficulty r e.score)) with
      | some res => exact tryTiersAny_some shuffle hs _ _ _ h3
      | none =>
        rw [if_pos (List.length_pos.mpr hqs)]
        obtain ⟨a, ha, _⟩ := exists_head?_mem (perm_ne_nil (hs _) hqs)
        exact ⟨a, ha⟩

theorem selectQuizQuestion_none_iff
    (shuffle : List PowerPathQuestion → List PowerPathQuestion)
    (hs : ∀ l, List.Perm (shuffle l) l) (r : Bool) (e : Engine) :
    selectQuizQuestion shuffle r e = none ↔ e.quizQuestions = [] := by
  constructor
  · intro h
    by_contra hne
    obtain ⟨q, hq⟩ := selectQuizQuestion_some shuffle hs r e hne
    rw [hq] at h
    exact Option.noConfusion h
  · intro h
    simp [selectQuizQuestion, h, tryTiersUnseen_empty, tryTiersAny_empty]

/-- Claim C5: `getNextQuestion` returns nothing exactly when the engine
is complete (score ≥ 100) or it is in quiz phase with an empty quiz
pool; with score < 100 and the guiding cursor not exhausted it returns
the guiding question at the cursor (the function is pure: no state is
produced or mutated). -/
theorem getNextQuestion_C5
    (shuffle : List PowerPathQuestion → List PowerPathQuestion)
    (hs : ∀ l, List.Perm (shuffle l) l) (r : Bool) (e : Engine) :
    (getNextQuestion shuffle r e = none ↔
      (100 ≤ e.score ∨
        (e.guidingQuestions.length ≤ e.currentGuidingIndex ∧
          e.quizQuestions = []))) ∧
    (e.score < 100 → e.currentGuidingIndex < e.guidingQuestions.length →
      ∃ gq, e.guidingQuestions[e.currentGuidingIndex]? = some gq ∧
        getNextQuestion shuffle r e = some gq) := by
  constructor
  · by_cases hsc : 100 ≤ e.score
    · simp [getNextQuestion, hsc]
    · by_cases hg : e.currentGuidingIndex < e.guidingQuestions.length
      · simp [getNextQuestion, hsc, hg, List.getElem?_eq_getElem hg,
          not_le.mpr hg]
      · have hle : e.guidingQuestions.length ≤ e.currentGuidingIndex :=
          Nat.le_of_not_lt hg
        have hsel : getNextQuestion shuffle r e = selectQuizQuestion shuffle r e := by
          simp [getNextQuestion, hsc, hg]
        rw [hsel, selectQuizQuestion_none_iff shuffle hs r e]
        simp [hsc, hle]
  · intro h1 h2
    refine ⟨e.guidingQuestions[e.currentGuidingIndex],
      List.getElem?_eq_getElem h2, ?_⟩
    simp [getNextQuestion, not_le.mpr h1, h2, List.getElem?_eq_getElem h2]

/-- Witness for C5: an engine with empty pools and score 0 yields no
question. -/
theorem getNextQuestion_C5_witness :
    getNextQuestion id true (mkEngine [] [] none 0) = none :=
  (getNextQuestion_C5 id (fun l => List.Perm.refl l) true
      (mkEngine [] [] none 0)).1.mpr
    (Or.inr ⟨Nat.le_refl 0, rfl⟩)

/-- Claim C8: the candidate list built by `prioritizeHumanApproved` is
the shuffled human-approved partition concatenated before the shuffled
not-approved partition; consequently, for every outcome of the shuffles,
whenever the candidate set contains at least one human-approved
question, the head the selector takes is human-approved. -/
theorem approved_first_C8
    (shuffle : List PowerPathQuestion → List PowerPathQuestion)
    (hs : ∀ l, List.Perm (shuffle l) l) (qs : List PowerPathQuestion) :
    prioritizeHumanApproved shuffle qs
        = shuffle (qs.filter (fun q => q.humanApproved = some true))
          ++ shuffle (qs.filter (fun q => ¬ q.humanApproved = some true)) ∧
    ((∃ q ∈ qs, q.humanApproved = some true) →
      ∃ p, (prioritizeHumanApproved shuffle qs).head? = some p ∧
        p.humanApproved = some true) := by
  refine ⟨rfl, ?_⟩
  rintro ⟨q, hq_mem, hq_app⟩
  have happ_ne :
      qs.filter (fun q => decide (q.humanApproved = some true)) ≠ [] := by
    intro hnil
    have hq : q ∈ qs.filter (fun q => decide (q.humanApproved = some true)) :=
      List.mem_filter.mpr ⟨hq_mem, by simp [hq_app]⟩
    rw [hnil] at hq
    exact absurd hq (List.not_mem_nil q)
  have hsne :
      shuffle (qs.filter (fun q => decide (q.humanApproved = some true)))
        ≠ [] := perm_ne_nil (hs _) happ_ne
  obtain ⟨a, t, hA⟩ := List.exists_cons_of_ne_nil hsne
  have ha_mem :
      a ∈ shuffle (qs.filter (fun q => decide (q.humanApproved = some true))) := by
    rw [hA]
    exact List.Mem.head t
  have ha_app : a.humanApproved = some true := by
    simpa using (List.mem_filter.mp ((hs _).mem_iff.mp ha_mem)).2
  refine ⟨a, ?_, ha_app⟩
  show (shuffle (qs.filter (fun q => decide (q.humanApproved = some true)))
      ++ shuffle (qs.filter (fun q => decide (¬ q.humanApproved = some true)))).head?
    = some a
  rw [hA]
  rfl

/-- Witness for C8: a singleton candidate set whose question is
human-approved. -/
theorem approved_first_C8_witness :
    ∃ p, (prioritizeHumanApproved id
        [{ id := "a", prompt := "", choices := [], difficulty := .easy,
           humanApproved := some true }]).head? = some p ∧
      p.humanApproved = some true :=
  (approved_first_C8 id (fun l => List.Perm.refl l)
      [{ id := "a", prompt := "", choices := [], difficulty := .easy,
         humanApproved := some true }]).2
    ⟨{ id := "a", prompt := "", choices := [], difficulty := .easy,
       humanApproved := some true }, List.Mem.head _, rfl⟩

end PowerPath
